import Mathlib

/-!
Shallow embedding of `backbone/views.py` from django-backbone: the class
`BackboneAPIView`, a generic REST-style view exposing a Django model as JSON
over HTTP (list, detail, create, update, delete).

Framework collaborators are modelled as function-valued fields of the view
configuration (`orderBy` for the ORM order_by, `modelform` for the form
class produced by `modelform_factory`, `reverse` for the URL resolver);
the body of every view method is translated line by line from the source.
-/

namespace Backbone

/-- JSON values: the payload type of request bodies and serialized records. -/
inductive Json where
  | null : Json
  | bool : Bool → Json
  | num : Int → Json
  | str : String → Json
  | arr : List Json → Json
  | obj : List (String × Json) → Json

/-- An attribute of a model instance, as `serialize` distinguishes them:
a callable on the model (calling it yields the stored value), a raw
database field, or a non-callable non-field attribute (a property). -/
inductive Attr where
  | method : Json → Attr
  | dbField : Json → Attr
  | prop : Json → Attr

/-- A model instance: its primary key and its attribute dictionary
(the domain of Python `hasattr`/`getattr` on the instance). -/
structure Obj where
  id : Int
  attrs : List (String × Attr)

/-- The database: the rows of the model, in default manager order. -/
abbrev DB := List Obj

/-- An entry of `display_fields`: either a plain field name or a callable
(with its `__name__`), exactly the two shapes `serialize` dispatches on. -/
inductive FieldSpec where
  | func : String → (Obj → Json) → FieldSpec
  | name : String → FieldSpec

/-- The outcome of instantiating the model form on a payload: validity,
the `errors` dictionary, `cleaned_data`, and the object `save()` persists. -/
structure FormResult where
  is_valid : Bool
  errors : Json
  cleaned_data : Json
  save : Obj

/-- The requesting user, reduced to what the view consults: the set of
permission strings for which `has_perm` answers true. -/
structure User where
  perms : List String

/-- Django `request.user.has_perm`. -/
def User.has_perm (u : User) (p : String) : Bool := u.perms.contains p

/-- An HTTP request as the view reads it: the user, the JSON-parse result
of the body (`Except.error` models a `ValueError` from `json.loads`), and
the `page` GET parameter (absent, or the result of `int()` on it). -/
structure Request where
  user : User
  body : Except Unit Json
  pageParam : Option (Except Unit Int)

/-- An HTTP response: status code, body, content type, `Location` header. -/
structure Response where
  status : Nat
  body : String
  content_type : Option String
  location : Option String

/-- Django `HttpResponse(content, content_type=...)`. -/
def HttpResponse (body : String) (ct : Option String) : Response :=
  ⟨200, body, ct, none⟩

/-- Django `HttpResponseBadRequest`. -/
def HttpResponseBadRequest (body : String) (ct : Option String) : Response :=
  ⟨400, body, ct, none⟩

/-- Django `HttpResponseForbidden`. -/
def HttpResponseForbidden (body : String) : Response :=
  ⟨403, body, none, none⟩

/-- The response Django renders for the `Http404` raised by
`get_object_or_404`. -/
def Http404 : Response :=
  ⟨404, "", none, none⟩

/-- The configuration of a concrete `BackboneAPIView` subclass, together
with the framework collaborators the view delegates to. `viewMethods` is
the dictionary behind `hasattr(self, field)`/`getattr(self, field)` for
serialization methods defined on the view; `modelform` is the behaviour of
the form class built by `modelform_factory(self.model, form, fields)`
(the `form` and `fields` class attributes are folded into it);
`reverse` is the URL resolver. -/
structure ViewConfig where
  app_label : String
  object_name : String
  module_name : String
  display_fields : List FieldSpec
  viewMethods : List (String × (Obj → Json))
  ordering : Option (List String)
  paginate_by : Option Nat
  orderBy : List String → List Obj → List Obj
  modelform : Json → Option Obj → FormResult
  reverse : String → Int → String

/-- ASCII lower-casing of one character, as Python `str.lower()` acts on
the identifier characters of a Django model name. -/
def char_lower (c : Char) : Char :=
  if 65 ≤ c.toNat ∧ c.toNat ≤ 90 then Char.ofNat (c.toNat + 32) else c

/-- Python `str.lower()` on a model name. -/
def str_lower (s : String) : String := String.mk (s.data.map char_lower)

/-- Python dict assignment `d[k] = v`: overwrite in place if the key is
present, else append. -/
def dictInsert (d : List (String × Json)) (k : String) (v : Json) :
    List (String × Json) :=
  if d.any (fun p => p.1 == k) then
    d.map (fun p => if p.1 == k then (k, v) else p)
  else d ++ [(k, v)]

/-- Modelled from the spec: `AllFieldsSerializer` lives in
`backbone/serializers.py`, which is not under `src/`; the spec describes it
as the framework serializer utility converting model field values to
JSON-safe primitives. It serializes, for the requested field names, the
database fields of the object into a name-to-value dictionary. -/
def allFieldsSerializer (o : Obj) (fields : List String) :
    List (String × Json) :=
  fields.filterMap (fun f =>
    match o.attrs.lookup f with
    | some (Attr.dbField v) => some (f, v)
    | _ => none)

/-- Python `getattr(obj, field)` as used on the non-callable leftovers of
`serialize` (there the attribute is always a database field or a property;
the other branches are unreachable in that use). -/
def getattr_value (o : Obj) (f : String) : Json :=
  match o.attrs.lookup f with
  | some (Attr.dbField v) => v
  | some (Attr.prop v) => v
  | some (Attr.method v) => v
  | none => Json.null

namespace BackboneAPIView

/-- The `for field in fields` loop of `BackboneAPIView.serialize`: callables
are called, view methods are called on the object, callable model
attributes are called, non-callable model attributes are deferred to
`remaining_fields`, and a field matching nothing raises
`AttributeError('Invalid field: %s' % field)`. -/
def serializeLoop (v : ViewConfig) (o : Obj) :
    List FieldSpec → List (String × Json) → List String →
    Except String (List (String × Json) × List String)
  | [], data, rem => Except.ok (data, rem)
  | FieldSpec.func n g :: rest, data, rem =>
      serializeLoop v o rest (dictInsert data n (g o)) rem
  | FieldSpec.name s :: rest, data, rem =>
      match v.viewMethods.lookup s with
      | some g => serializeLoop v o rest (dictInsert data s (g o)) rem
      | none =>
          match o.attrs.lookup s with
          | some (Attr.method val) =>
              serializeLoop v o rest (dictInsert data s val) rem
          | some (Attr.dbField _) => serializeLoop v o rest data (rem ++ [s])
          | some (Attr.prop _) => serializeLoop v o rest data (rem ++ [s])
          | none => Except.error ("Invalid field: " ++ s)

/-- `BackboneAPIView.serialize`: the dispatch loop, then the database
fields of `remaining_fields` through `AllFieldsSerializer`, then
`getattr` on whatever of `remaining_fields` the serializer did not cover. -/
def serialize (v : ViewConfig) (o : Obj) (fields : List FieldSpec) :
    Except String (List (String × Json)) :=
  match serializeLoop v o fields [] [] with
  | Except.error e => Except.error e
  | Except.ok (data, rem) =>
      let data2 := (allFieldsSerializer o rem).foldl
        (fun d p => dictInsert d p.1 p.2) data
      let rem2 := rem.filter (fun f => !(data2.any (fun p => p.1 == f)))
      Except.ok (rem2.foldl (fun d f => dictInsert d f (getattr_value o f)) data2)

end BackboneAPIView

/-- Lexicographic order on character lists by code point, the order
`sort_keys=True` uses on keys. -/
def charListLE : List Char → List Char → Bool
  | [], _ => true
  | _ :: _, [] => false
  | a :: as, b :: bs =>
      if a.toNat < b.toNat then true
      else if b.toNat < a.toNat then false
      else charListLE as bs

/-- String comparison by code points. -/
def strLE (a b : String) : Bool := charListLE a.data b.data

/-- The key ordering used by `sort_keys=True` of `json.dumps`. -/
def keyLE (a b : String × Json) : Prop := strLE a.1 b.1 = true

instance : DecidableRel keyLE := fun a b =>
  inferInstanceAs (Decidable (strLE a.1 b.1 = true))

/-- Sort a JSON dictionary by key, as `json.dumps(..., sort_keys=True)`
renders it. -/
def sortPairs (l : List (String × Json)) : List (String × Json) :=
  l.insertionSort keyLE

theorem charListLE_total (as bs : List Char) :
    charListLE as bs = true ∨ charListLE bs as = true := by
  induction as generalizing bs with
  | nil => left; rfl
  | cons a as ih =>
    cases bs with
    | nil => right; rfl
    | cons b bs =>
      simp only [charListLE]
      rcases Nat.lt_trichotomy a.toNat b.toNat with h | h | h
      · left; simp [h]
      · have h1 : ¬ a.toNat < b.toNat := by omega
        have h2 : ¬ b.toNat < a.toNat := by omega
        rcases ih bs with hc | hc
        · left; simp [h1, h2, hc]
        · right; simp [h1, h2, hc]
      · right; simp [h]

theorem charListLE_trans (as bs cs : List Char)
    (h1 : charListLE as bs = true) (h2 : charListLE bs cs = true) :
    charListLE as cs = true := by
  induction as generalizing bs cs with
  | nil => rfl
  | cons a as ih =>
    cases bs with
    | nil => simp [charListLE] at h1
    | cons b bs =>
      cases cs with
      | nil => simp [charListLE] at h2
      | cons c cs =>
        simp only [charListLE] at h1 h2 ⊢
        rcases Nat.lt_trichotomy a.toNat b.toNat with hab | hab | hab
        · rcases Nat.lt_trichotomy b.toNat c.toNat with hbc | hbc | hbc
          · rw [if_pos (Nat.lt_trans hab hbc)]
          · rw [if_pos (show a.toNat < c.toNat by omega)]
          · rw [if_neg (show ¬ b.toNat < c.toNat by omega), if_pos hbc] at h2
            exact Bool.noConfusion h2
        · have hx : ¬ a.toNat < b.toNat := by omega
          have hy : ¬ b.toNat < a.toNat := by omega
          rw [if_neg hx, if_neg hy] at h1
          rcases Nat.lt_trichotomy b.toNat c.toNat with hbc | hbc | hbc
          · rw [if_pos (show a.toNat < c.toNat by omega)]
          · rw [if_neg (show ¬ b.toNat < c.toNat by omega),
              if_neg (show ¬ c.toNat < b.toNat by omega)] at h2
            rw [if_neg (show ¬ a.toNat < c.toNat by omega),
              if_neg (show ¬ c.toNat < a.toNat by omega)]
            exact ih bs cs h1 h2
          · rw [if_neg (show ¬ b.toNat < c.toNat by omega), if_pos hbc] at h2
            exact Bool.noConfusion h2
        · rw [if_neg (show ¬ a.toNat < b.toNat by omega), if_pos hab] at h1
          exact Bool.noConfusion h1

instance : IsTotal (String × Json) keyLE :=
  ⟨fun a b => charListLE_total a.1.data b.1.data⟩

instance : IsTrans (String × Json) keyLE :=
  ⟨fun _ _ _ hab hbc => charListLE_trans _ _ _ hab hbc⟩

mutual

/-- Recursively sort every dictionary of a JSON value by key. -/
def sortKeysRec : Json → Json
  | Json.null => Json.null
  | Json.bool b => Json.bool b
  | Json.num n => Json.num n
  | Json.str s => Json.str s
  | Json.arr xs => Json.arr (sortKeysArr xs)
  | Json.obj kvs => Json.obj (sortPairs (sortKeysList kvs))

/-- Pointwise `sortKeysRec` over an array. -/
def sortKeysArr : List Json → List Json
  | [] => []
  | x :: xs => sortKeysRec x :: sortKeysArr xs

/-- Pointwise `sortKeysRec` over the values of a dictionary. -/
def sortKeysList : List (String × Json) → List (String × Json)
  | [] => []
  | (k, v) :: xs => (k, sortKeysRec v) :: sortKeysList xs

end

mutual

/-- Render a JSON value to its text. -/
def renderJson : Json → String
  | Json.null => "null"
  | Json.bool b => if b then "true" else "false"
  | Json.num n => toString n
  | Json.str s => "\"" ++ s ++ "\""
  | Json.arr xs => "[" ++ renderArr xs ++ "]"
  | Json.obj kvs => "\x7b" ++ renderPairs kvs ++ "\x7d"

/-- Render array elements, comma separated. -/
def renderArr : List Json → String
  | [] => ""
  | [x] => renderJson x
  | x :: xs => renderJson x ++ ", " ++ renderArr xs

/-- Render dictionary entries, comma separated. -/
def renderPairs : List (String × Json) → String
  | [] => ""
  | [(k, v)] => "\"" ++ k ++ "\": " ++ renderJson v
  | (k, v) :: xs => "\"" ++ k ++ "\": " ++ renderJson v ++ ", " ++ renderPairs xs

end

namespace BackboneAPIView

/-- `BackboneAPIView.json_dumps`: `json.dumps` with `DjangoJSONEncoder` and
`sort_keys=True`, modelled as rendering after recursively sorting keys. -/
def json_dumps (j : Json) : String := renderJson (sortKeysRec j)

/-- `BackboneAPIView.queryset`: all rows, ordered when `self.ordering` is
truthy (Python truthiness: `None` and the empty sequence are falsy). -/
def queryset (v : ViewConfig) (db : DB) : List Obj :=
  match v.ordering with
  | none => db
  | some o => if o.isEmpty then db else v.orderBy o db

/-- `BackboneAPIView.get_form_instance`: the form built by
`modelform_factory(self.model, form, fields)` applied to the payload and
the optional instance. -/
def get_form_instance (v : ViewConfig) (data : Json) (inst : Option Obj) :
    FormResult :=
  v.modelform data inst

/-- The add permission string `'%s.add_%s' % (app_label, object_name.lower())`. -/
def add_perm_string (v : ViewConfig) : String :=
  v.app_label ++ ".add_" ++ str_lower v.object_name

/-- The change permission string. -/
def change_perm_string (v : ViewConfig) : String :=
  v.app_label ++ ".change_" ++ str_lower v.object_name

/-- The delete permission string. -/
def delete_perm_string (v : ViewConfig) : String :=
  v.app_label ++ ".delete_" ++ str_lower v.object_name

/-- `BackboneAPIView.has_add_permission`. -/
def has_add_permission (v : ViewConfig) (req : Request) : Bool :=
  req.user.has_perm (add_perm_string v)

/-- `BackboneAPIView.has_add_permission_for_data`: always `True` in the
base class. -/
def has_add_permission_for_data (_v : ViewConfig) (_req : Request)
    (_cleaned : Json) : Bool :=
  true

/-- `BackboneAPIView.has_update_permission`. -/
def has_update_permission (v : ViewConfig) (req : Request) (_obj : Obj) : Bool :=
  req.user.has_perm (change_perm_string v)

/-- `BackboneAPIView.has_update_permission_for_data`: always `True` in the
base class. -/
def has_update_permission_for_data (_v : ViewConfig) (_req : Request)
    (_cleaned : Json) : Bool :=
  true

/-- `BackboneAPIView.has_delete_permission`. -/
def has_delete_permission (v : ViewConfig) (req : Request) (_obj : Obj) : Bool :=
  req.user.has_perm (delete_perm_string v)

/-- The message wrapped by `HttpResponseForbidden` on a failed permission
check. -/
def permission_denied : String :=
  "You do not have permission to perform this action."

/-- The URL name `'backbone:%s_%s_detail' % (app_label, module_name)`. -/
def url_name (v : ViewConfig) : String :=
  "backbone:" ++ v.app_label ++ "_" ++ v.module_name ++ "_detail"

/-- `BackboneAPIView.get_object_detail`: serialize `id` plus the display
fields and wrap as a JSON `HttpResponse`. An `AttributeError` from
`serialize` propagates as `Except.error`. -/
def get_object_detail (v : ViewConfig) (o : Obj) : Except String Response :=
  match serialize v o (FieldSpec.name "id" :: v.display_fields) with
  | Except.error e => Except.error e
  | Except.ok data =>
      Except.ok (HttpResponse (json_dumps (Json.obj data)) (some "application/json"))

/-- Serialize each object of a collection with `id` plus the display
fields, as the list comprehension of `get_collection` does. -/
def serializeList (v : ViewConfig) : List Obj → Except String (List Json)
  | [] => Except.ok []
  | o :: os =>
      match serialize v o (FieldSpec.name "id" :: v.display_fields) with
      | Except.error e => Except.error e
      | Except.ok d =>
          match serializeList v os with
          | Except.error e => Except.error e
          | Except.ok rest => Except.ok (Json.obj d :: rest)

/-- The errors `Paginator.page` can raise. -/
inductive PageError where
  | pageNotAnInteger : PageError
  | emptyPage : PageError

/-- Django `Paginator.num_pages` with `orphans=0` and
`allow_empty_first_page=True`: at least one page, else the ceiling of
count over per_page. -/
def num_pages (count per : Nat) : Nat :=
  max 1 ((count + per - 1) / per)

/-- Django `Paginator(qs, per_page).page(number).object_list`:
`PageNotAnInteger` when `int()` failed on the parameter, `EmptyPage` when
the number is out of range, else the slice of the queryset for that page. -/
def paginator_page (qs : List Obj) (per : Nat) (page : Except Unit Int) :
    Except PageError (List Obj) :=
  match page with
  | Except.error _ => Except.error PageError.pageNotAnInteger
  | Except.ok p =>
      if p < 1 then Except.error PageError.emptyPage
      else if (num_pages qs.length per : Int) < p then
        Except.error PageError.emptyPage
      else Except.ok ((qs.drop ((p - 1).toNat * per)).take per)

/-- `request.GET.get('page', 1)` fed to the paginator: the default is the
integer 1; otherwise the `int()`-parse result of the parameter. -/
def page_number (req : Request) : Except Unit Int :=
  match req.pageParam with
  | none => Except.ok 1
  | some e => e

/-- `BackboneAPIView.get_collection`: paginate when `paginate_by` is not
`None` (mapping the two paginator errors to 400 responses), then serialize
the objects and wrap as a JSON `HttpResponse`. -/
def get_collection (v : ViewConfig) (req : Request) (db : DB) :
    Except String Response :=
  let qs := queryset v db
  match v.paginate_by with
  | none =>
      match serializeList v qs with
      | Except.error e => Except.error e
      | Except.ok l =>
          Except.ok (HttpResponse (json_dumps (Json.arr l)) (some "application/json"))
  | some per =>
      match paginator_page qs per (page_number req) with
      | Except.error PageError.pageNotAnInteger =>
          Except.ok (HttpResponseBadRequest
            "Invalid `page` parameter: Not a valid integer." none)
      | Except.error PageError.emptyPage =>
          Except.ok (HttpResponseBadRequest
            "Invalid `page` parameter: Out of range." none)
      | Except.ok pageQs =>
          match serializeList v pageQs with
          | Except.error e => Except.error e
          | Except.ok l =>
              Except.ok (HttpResponse (json_dumps (Json.arr l)) (some "application/json"))

/-- `BackboneAPIView.get`: object detail when an id was captured
(404 when no row matches), else the collection. -/
def get (v : ViewConfig) (req : Request) (id : Option Int) (db : DB) :
    Except String Response :=
  match id with
  | some i =>
      match (queryset v db).find? (fun o => o.id == i) with
      | none => Except.ok Http404
      | some obj => get_object_detail v obj
  | none => get_collection v req db

/-- `BackboneAPIView.add_object`: parse the body (400 on a JSON parse
error), build the form, and on a valid form run the data permission check
and save; the response is the new detail with status 201 and a `Location`
header; an invalid form yields 400 with the errors as JSON. -/
def add_object (v : ViewConfig) (req : Request) (db : DB) :
    Except String (Response × DB) :=
  match req.body with
  | Except.error _ =>
      Except.ok (HttpResponseBadRequest "Unable to parse JSON request body." none, db)
  | Except.ok data =>
      let form := get_form_instance v data none
      if form.is_valid then
        if !(has_add_permission_for_data v req form.cleaned_data) then
          Except.ok (HttpResponseForbidden permission_denied, db)
        else
          let obj := form.save
          match get_object_detail v obj with
          | Except.error e => Except.error e
          | Except.ok resp =>
              Except.ok
                (⟨201, resp.body, resp.content_type,
                  some (v.reverse (url_name v) obj.id)⟩, db ++ [obj])
      else
        Except.ok (HttpResponseBadRequest (json_dumps form.errors)
          (some "application/json"), db)

/-- `BackboneAPIView.post`: no posting to a detail page (403); otherwise
the add permission gate, then `add_object`. -/
def post (v : ViewConfig) (req : Request) (id : Option Int) (db : DB) :
    Except String (Response × DB) :=
  match id with
  | some _ => Except.ok (HttpResponseForbidden "", db)
  | none =>
      if !(has_add_permission v req) then
        Except.ok (HttpResponseForbidden permission_denied, db)
      else add_object v req db

/-- `BackboneAPIView.update_object`: parse the body (400 on a JSON parse
error), build the form on the instance, and on a valid form run the data
permission check, save, and return the updated detail; an invalid form
yields 400 with the errors as JSON. -/
def update_object (v : ViewConfig) (req : Request) (obj : Obj) (db : DB) :
    Except String (Response × DB) :=
  match req.body with
  | Except.error _ =>
      Except.ok (HttpResponseBadRequest "Unable to parse JSON request body." none, db)
  | Except.ok data =>
      let form := get_form_instance v data (some obj)
      if form.is_valid then
        if !(has_update_permission_for_data v req form.cleaned_data) then
          Except.ok (HttpResponseForbidden permission_denied, db)
        else
          let saved := form.save
          let db2 := db.map (fun o => if o.id == obj.id then saved else o)
          match get_object_detail v saved with
          | Except.error e => Except.error e
          | Except.ok resp => Except.ok (resp, db2)
      else
        Except.ok (HttpResponseBadRequest (json_dumps form.errors)
          (some "application/json"), db)

/-- `BackboneAPIView.put`: 404 when no row matches the id, the update
permission gate, then `update_object`; no putting on the collection (403). -/
def put (v : ViewConfig) (req : Request) (id : Option Int) (db : DB) :
    Except String (Response × DB) :=
  match id with
  | some i =>
      match (queryset v db).find? (fun o => o.id == i) with
      | none => Except.ok (Http404, db)
      | some obj =>
          if !(has_update_permission v req obj) then
            Except.ok (HttpResponseForbidden permission_denied, db)
          else update_object v req obj db
  | none => Except.ok (HttpResponseForbidden "", db)

/-- `BackboneAPIView.delete_object`: delete the row and answer an empty
204. -/
def delete_object (obj : Obj) (db : DB) : Response × DB :=
  (⟨204, "", none, none⟩, db.filter (fun o => !(o.id == obj.id)))

/-- `BackboneAPIView.delete`: 404 when no row matches the id, the delete
permission gate, then `delete_object`; no deleting the collection (403). -/
def delete (v : ViewConfig) (req : Request) (id : Option Int) (db : DB) :
    Except String (Response × DB) :=
  match id with
  | some i =>
      match (queryset v db).find? (fun o => o.id == i) with
      | none => Except.ok (Http404, db)
      | some obj =>
          if !(has_delete_permission v req obj) then
            Except.ok (HttpResponseForbidden permission_denied, db)
          else Except.ok (delete_object obj db)
  | none => Except.ok (HttpResponseForbidden "", db)

/-- The HTTP methods the view defines handlers for. -/
inductive Method where
  | GET : Method
  | POST : Method
  | PUT : Method
  | DELETE : Method

/-- The dispatch of `django.views.generic.View` restricted to the four
handlers `BackboneAPIView` defines, paired with the resulting database. -/
def dispatch (v : ViewConfig) (m : Method) (req : Request) (id : Option Int)
    (db : DB) : Except String (Response × DB) :=
  match m with
  | Method.GET =>
      match get v req id db with
      | Except.error e => Except.error e
      | Except.ok r => Except.ok (r, db)
  | Method.POST => post v req id db
  | Method.PUT => put v req id db
  | Method.DELETE => delete v req id db

/-- Project a handler result to its pair, with a default for the error
case; used to name the components of a computed response in closed
statements. -/
def okOr (e : Except String (Response × DB)) (d : Response × DB) :
    Response × DB :=
  match e with
  | Except.ok x => x
  | Except.error _ => d

/-- Project a GET result to its response, with a default for the error
case. -/
def respOr (e : Except String Response) (d : Response) : Response :=
  match e with
  | Except.ok r => r
  | Except.error _ => d

end BackboneAPIView

open BackboneAPIView

/-- A sample row: a database `id`, a database field `title`, a property
`slug`, and a callable `label`. -/
def testObj : Obj :=
  ⟨1, [("id", Attr.dbField (Json.num 1)), ("title", Attr.dbField (Json.str "a")),
       ("slug", Attr.prop (Json.str "s")), ("label", Attr.method (Json.str "m"))]⟩

/-- The row the sample form saves. -/
def testObj2 : Obj :=
  ⟨2, [("id", Attr.dbField (Json.num 2)), ("title", Attr.dbField (Json.str "b")),
       ("slug", Attr.prop (Json.str "t")), ("label", Attr.method (Json.str "n"))]⟩

/-- A sample view configuration for the `Book` model of app `app`: the form
is invalid exactly on a `null` payload. -/
def testView : ViewConfig :=
  ⟨"app", "Book", "book", [FieldSpec.name "title"], [], none, none,
   fun _ l => l,
   fun d _ =>
     match d with
     | Json.null => ⟨false, Json.obj [("title", Json.str "required")], Json.obj [], testObj2⟩
     | _ => ⟨true, Json.obj [], Json.obj [], testObj2⟩,
   fun n i => n ++ "/" ++ toString i⟩

/-- The sample view with pagination at two rows per page. -/
def testViewPaged : ViewConfig :=
  ⟨"app", "Book", "book", [FieldSpec.name "title"], [], none, some 2,
   testView.orderBy, testView.modelform, testView.reverse⟩

/-- A user holding the add, change and delete permissions of the sample
model. -/
def testUserAll : User :=
  ⟨["app.add_book", "app.change_book", "app.delete_book"]⟩

/-- A user holding no permission. -/
def testUserNone : User := ⟨[]⟩

/-- A request with a well-formed JSON body the sample form accepts. -/
def testReq : Request :=
  ⟨testUserAll, Except.ok (Json.obj [("title", Json.str "x")]), none⟩

/-- A request whose body the sample form rejects. -/
def testReqInvalidForm : Request := ⟨testUserAll, Except.ok Json.null, none⟩

/-- A request whose body is not valid JSON. -/
def testReqBadBody : Request := ⟨testUserAll, Except.error (), none⟩

/-- A request from the user without permissions. -/
def testReqNoPerm : Request :=
  ⟨testUserNone, Except.ok (Json.obj [("title", Json.str "x")]), none⟩

/-- A sample database of one row. -/
def testDB : DB := [testObj]

/-- A third sample row, for pagination. -/
def testObj3 : Obj :=
  ⟨3, [("id", Attr.dbField (Json.num 3)), ("title", Attr.dbField (Json.str "c")),
       ("slug", Attr.prop (Json.str "u")), ("label", Attr.method (Json.str "o"))]⟩

/-- A sample database of three rows. -/
def testDB3 : DB := [testObj, testObj2, testObj3]

/-- A request asking for page 2. -/
def testReqPage2 : Request :=
  ⟨testUserAll, Except.ok (Json.obj []), some (Except.ok 2)⟩

example : serialize testView testObj [FieldSpec.name "title"] =
    Except.ok [("title", Json.str "a")] := rfl

example : serialize testView testObj [FieldSpec.name "slug"] =
    Except.ok [("slug", Json.str "s")] := rfl

example : serialize testView testObj [FieldSpec.name "label"] =
    Except.ok [("label", Json.str "m")] := rfl

example : serialize testView testObj [FieldSpec.name "nope"] =
    Except.error "Invalid field: nope" := rfl

example : serialize testView testObj (FieldSpec.name "id" :: testView.display_fields) =
    Except.ok [("id", Json.num 1), ("title", Json.str "a")] := rfl

example : get testView testReq none testDB =
    Except.ok (HttpResponse (json_dumps (Json.arr [Json.obj [("id", Json.num 1), ("title", Json.str "a")]])) (some "application/json")) := rfl

example : json_dumps (Json.obj [("b", Json.num 2), ("a", Json.num 1)]) =
    "\x7b\"a\": 1, \"b\": 2\x7d" := rfl

/-- The serialization loop raises as soon as it reaches a field name that
is neither a view method nor an attribute of the object, whatever was
already accumulated. -/
theorem serializeLoop_error_of_invalid (v : ViewConfig) (o : Obj) (f : String)
    (hv : v.viewMethods.lookup f = none) (ha : o.attrs.lookup f = none) :
    ∀ (fs : List FieldSpec) (data : List (String × Json)) (rem : List String),
      FieldSpec.name f ∈ fs →
      ∃ e, serializeLoop v o fs data rem = Except.error e := by
  intro fs
  induction fs with
  | nil => intro data rem h; exact absurd h (List.not_mem_nil _)
  | cons hd tl ih =>
    intro data rem hmem
    rcases List.mem_cons.mp hmem with heq | htl
    · cases heq
      exact ⟨"Invalid field: " ++ f, by simp [serializeLoop, hv, ha]⟩
    · cases hd with
      | func n g =>
        obtain ⟨e, he⟩ := ih (dictInsert data n (g o)) rem htl
        exact ⟨e, by simp [serializeLoop, he]⟩
      | name s =>
        cases hv2 : v.viewMethods.lookup s with
        | some g =>
          obtain ⟨e, he⟩ := ih (dictInsert data s (g o)) rem htl
          exact ⟨e, by simp [serializeLoop, hv2, he]⟩
        | none =>
          cases ha2 : o.attrs.lookup s with
          | none => exact ⟨"Invalid field: " ++ s, by simp [serializeLoop, hv2, ha2]⟩
          | some a =>
            cases a with
            | method val =>
              obtain ⟨e, he⟩ := ih (dictInsert data s val) rem htl
              exact ⟨e, by simp [serializeLoop, hv2, ha2, he]⟩
            | dbField val =>
              obtain ⟨e, he⟩ := ih data (rem ++ [s]) htl
              exact ⟨e, by simp [serializeLoop, hv2, ha2, he]⟩
            | prop val =>
              obtain ⟨e, he⟩ := ih data (rem ++ [s]) htl
              exact ⟨e, by simp [serializeLoop, hv2, ha2, he]⟩

/-- C1: when serializing an object, a requested field name is resolved by
falling back from a view method, to a model attribute (called when
callable), to the raw database field (or remaining property), and a name
matching none of these raises the AttributeError `Invalid field`;
moreover a request containing such an unmatched name fails as a whole. -/
theorem C1_field_dispatch (v : ViewConfig) (o : Obj) (f : String) :
    (serialize v o [FieldSpec.name f] =
      match v.viewMethods.lookup f with
      | some g => Except.ok [(f, g o)]
      | none =>
        match o.attrs.lookup f with
        | some (Attr.method val) => Except.ok [(f, val)]
        | some (Attr.dbField val) => Except.ok [(f, val)]
        | some (Attr.prop val) => Except.ok [(f, val)]
        | none => Except.error ("Invalid field: " ++ f)) ∧
    (∀ fs : List FieldSpec, v.viewMethods.lookup f = none →
      o.attrs.lookup f = none → FieldSpec.name f ∈ fs →
      ∃ e, serialize v o fs = Except.error e) := by
  constructor
  · cases hv : v.viewMethods.lookup f with
    | some g =>
      simp [serialize, serializeLoop, hv, dictInsert, allFieldsSerializer]
    | none =>
      cases ha : o.attrs.lookup f with
      | none => simp [serialize, serializeLoop, hv, ha]
      | some a =>
        cases a with
        | method val =>
          simp [serialize, serializeLoop, hv, ha, dictInsert, allFieldsSerializer]
        | dbField val =>
          simp [serialize, serializeLoop, hv, ha, dictInsert, allFieldsSerializer,
            getattr_value]
        | prop val =>
          simp [serialize, serializeLoop, hv, ha, dictInsert, allFieldsSerializer,
            getattr_value]
  · intro fs hv ha hmem
    obtain ⟨e, he⟩ := serializeLoop_error_of_invalid v o f hv ha fs [] [] hmem
    exact ⟨e, by simp [serialize, he]⟩

/-- Witness for C1 at a concrete view, object and invalid field name. -/
theorem C1_field_dispatch_witness :
    ∃ e, serialize testView testObj [FieldSpec.name "nope"] = Except.error e :=
  (C1_field_dispatch testView testObj "nope").2 [FieldSpec.name "nope"] rfl rfl
    (List.mem_singleton.mpr rfl)

/-- C2: create, update and delete all gate on `request.user.has_perm` with
the add/change/delete permission string of the model, and a failed check
answers 403 with the database untouched. -/
theorem C2_permission_gating (v : ViewConfig) (req : Request) (i : Int)
    (db : DB) (obj : Obj) :
    (has_add_permission v req =
        req.user.has_perm (v.app_label ++ ".add_" ++ str_lower v.object_name) ∧
      has_update_permission v req obj =
        req.user.has_perm (v.app_label ++ ".change_" ++ str_lower v.object_name) ∧
      has_delete_permission v req obj =
        req.user.has_perm (v.app_label ++ ".delete_" ++ str_lower v.object_name)) ∧
    (has_add_permission v req = false →
      post v req none db = Except.ok (HttpResponseForbidden permission_denied, db)) ∧
    ((queryset v db).find? (fun o => o.id == i) = some obj →
      has_update_permission v req obj = false →
      put v req (some i) db = Except.ok (HttpResponseForbidden permission_denied, db)) ∧
    ((queryset v db).find? (fun o => o.id == i) = some obj →
      has_delete_permission v req obj = false →
      delete v req (some i) db = Except.ok (HttpResponseForbidden permission_denied, db)) := by
  refine ⟨⟨rfl, rfl, rfl⟩, ?_, ?_, ?_⟩
  · intro h; simp [post, h]
  · intro hf hp; simp [put, hf, hp]
  · intro hf hp; simp [delete, hf, hp]

/-- Witness for C2: the permission-less user is refused on all three
mutating requests and the database of the sample view is unchanged. -/
theorem C2_permission_gating_witness :
    post testView testReqNoPerm none testDB =
      Except.ok (HttpResponseForbidden permission_denied, testDB) ∧
    put testView testReqNoPerm (some 1) testDB =
      Except.ok (HttpResponseForbidden permission_denied, testDB) ∧
    delete testView testReqNoPerm (some 1) testDB =
      Except.ok (HttpResponseForbidden permission_denied, testDB) :=
  ⟨(C2_permission_gating testView testReqNoPerm 1 testDB testObj).2.1 rfl,
   (C2_permission_gating testView testReqNoPerm 1 testDB testObj).2.2.1 rfl rfl,
   (C2_permission_gating testView testReqNoPerm 1 testDB testObj).2.2.2 rfl rfl⟩

/-- C8: a POST with an id, and a PUT or DELETE without one, answer an
empty 403 unconditionally: for every request (any user, any body) and
every database, which is returned unchanged. -/
theorem C8_unconditional_forbidden (v : ViewConfig) (req : Request) (i : Int)
    (db : DB) :
    post v req (some i) db = Except.ok (HttpResponseForbidden "", db) ∧
    put v req none db = Except.ok (HttpResponseForbidden "", db) ∧
    delete v req none db = Except.ok (HttpResponseForbidden "", db) :=
  ⟨rfl, rfl, rfl⟩

/-- C10: a POST or PUT body that is not valid JSON yields 400 with the
parse message and an unchanged database, for every view configuration
(hence before and independently of any form or data permission check). -/
theorem C10_unparseable_body (v : ViewConfig) (req : Request) (db : DB)
    (obj : Obj) :
    req.body = Except.error () →
    add_object v req db =
      Except.ok (HttpResponseBadRequest "Unable to parse JSON request body." none, db) ∧
    update_object v req obj db =
      Except.ok (HttpResponseBadRequest "Unable to parse JSON request body." none, db) := by
  intro h
  exact ⟨by simp [add_object, h], by simp [update_object, h]⟩

/-- C3: create and update validate the payload through the model form; the
400 answer of an invalid form carries the errors of the form as JSON and
leaves the database unchanged, and the database changes (by an append
respectively an in-place replacement) only when the form is valid. -/
theorem C3_form_validation (v : ViewConfig) (req : Request) (db : DB)
    (data : Json) (obj : Obj) :
    req.body = Except.ok data →
    ((get_form_instance v data none).is_valid = false →
      add_object v req db =
        Except.ok (HttpResponseBadRequest
          (json_dumps (get_form_instance v data none).errors)
          (some "application/json"), db)) ∧
    (∀ resp db2, add_object v req db = Except.ok (resp, db2) →
      ((get_form_instance v data none).is_valid = true →
        db2 = db ++ [(get_form_instance v data none).save]) ∧
      ((get_form_instance v data none).is_valid = false → db2 = db)) ∧
    ((get_form_instance v data (some obj)).is_valid = false →
      update_object v req obj db =
        Except.ok (HttpResponseBadRequest
          (json_dumps (get_form_instance v data (some obj)).errors)
          (some "application/json"), db)) ∧
    (∀ resp db2, update_object v req obj db = Except.ok (resp, db2) →
      ((get_form_instance v data (some obj)).is_valid = true →
        db2 = db.map (fun o =>
          if o.id == obj.id then (get_form_instance v data (some obj)).save else o)) ∧
      ((get_form_instance v data (some obj)).is_valid = false → db2 = db)) := by
  intro hb
  refine ⟨?_, ?_, ?_, ?_⟩
  · intro hinv
    simp [add_object, hb, hinv]
  · intro resp db2 h
    constructor
    · intro hvld
      simp only [add_object, hb, hvld, has_add_permission_for_data, Bool.not_true,
        if_true] at h
      cases hd : get_object_detail v (get_form_instance v data none).save with
      | error e => rw [hd] at h; simp at h
      | ok r => rw [hd] at h; simp at h; exact h.2.symm
    · intro hinv
      simp only [add_object, hb, hinv] at h
      simp at h
      exact h.2.symm
  · intro hinv
    simp [update_object, hb, hinv]
  · intro resp db2 h
    constructor
    · intro hvld
      simp only [update_object, hb, hvld, has_update_permission_for_data,
        Bool.not_true, if_true] at h
      cases hd : get_object_detail v (get_form_instance v data (some obj)).save with
      | error e => rw [hd] at h; simp at h
      | ok r => rw [hd] at h; simp at h; simpa using h.2.symm
    · intro hinv
      simp only [update_object, hb, hinv] at h
      simp at h
      exact h.2.symm

/-- Witness for C3: the rejected payload answers 400 with the errors of
the form and leaves the database alone, and the accepted payload appends
respectively replaces the saved object. -/
theorem C3_form_validation_witness :
    (add_object testView testReqInvalidForm testDB =
      Except.ok (HttpResponseBadRequest
        (json_dumps (Json.obj [("title", Json.str "required")]))
        (some "application/json"), testDB)) ∧
    (okOr (add_object testView testReq testDB) (Http404, [])).2 =
      testDB ++ [testObj2] ∧
    (update_object testView testReqInvalidForm testObj testDB =
      Except.ok (HttpResponseBadRequest
        (json_dumps (Json.obj [("title", Json.str "required")]))
        (some "application/json"), testDB)) ∧
    (okOr (update_object testView testReq testObj testDB) (Http404, [])).2 =
      [testObj2] :=
  ⟨(C3_form_validation testView testReqInvalidForm testDB Json.null testObj rfl).1 rfl,
   ((C3_form_validation testView testReq testDB (Json.obj [("title", Json.str "x")])
        testObj rfl).2.1
      (okOr (add_object testView testReq testDB) (Http404, [])).1
      (okOr (add_object testView testReq testDB) (Http404, [])).2 rfl).1 rfl,
   (C3_form_validation testView testReqInvalidForm testDB Json.null testObj rfl).2.2.1 rfl,
   ((C3_form_validation testView testReq testDB (Json.obj [("title", Json.str "x")])
        testObj rfl).2.2.2
      (okOr (update_object testView testReq testObj testDB) (Http404, [])).1
      (okOr (update_object testView testReq testObj testDB) (Http404, [])).2 rfl).1 rfl⟩

/-- C9: a successful create answers 201 with the serialized detail of the
new object as body and the reversed detail URL of the new object as
`Location` header; a successful delete answers an empty 204. -/
theorem C9_created_and_deleted (v : ViewConfig) (req : Request) (db : DB)
    (data : Json) (i : Int) (obj : Obj) :
    (req.body = Except.ok data →
      (get_form_instance v data none).is_valid = true →
      ∀ resp db2, add_object v req db = Except.ok (resp, db2) →
        resp.status = 201 ∧
        resp.location =
          some (v.reverse (url_name v) (get_form_instance v data none).save.id) ∧
        ∃ d, serialize v (get_form_instance v data none).save
            (FieldSpec.name "id" :: v.display_fields) = Except.ok d ∧
          resp.body = json_dumps (Json.obj d)) ∧
    ((queryset v db).find? (fun o => o.id == i) = some obj →
      has_delete_permission v req obj = true →
      delete v req (some i) db =
        Except.ok (⟨204, "", none, none⟩, db.filter (fun o => !(o.id == obj.id)))) := by
  constructor
  · intro hb hvld resp db2 h
    simp only [add_object, hb, hvld, has_add_permission_for_data, Bool.not_true,
      if_true] at h
    cases hd : get_object_detail v (get_form_instance v data none).save with
    | error e => rw [hd] at h; simp at h
    | ok r =>
      rw [hd] at h
      simp at h
      obtain ⟨hr, _⟩ := h
      simp only [get_object_detail] at hd
      cases hs : serialize v (get_form_instance v data none).save
          (FieldSpec.name "id" :: v.display_fields) with
      | error e => rw [hs] at hd; simp at hd
      | ok d =>
        rw [hs] at hd
        simp at hd
        refine ⟨?_, ?_, d, rfl, ?_⟩
        · rw [← hr]
        · rw [← hr]
        · rw [← hr, ← hd]; rfl
  · intro hf hp
    simp [delete, hf, hp, delete_object]

/-- Witness for C9: the concrete create answers 201, carries the reversed
URL of the new object, and its body is the serialized detail; the concrete
delete empties the sample database with an empty 204. -/
theorem C9_created_and_deleted_witness :
    ((okOr (add_object testView testReq testDB) (Http404, [])).1.status = 201 ∧
      (okOr (add_object testView testReq testDB) (Http404, [])).1.location =
        some (testView.reverse (url_name testView) 2) ∧
      ∃ d, serialize testView testObj2
          (FieldSpec.name "id" :: testView.display_fields) = Except.ok d ∧
        (okOr (add_object testView testReq testDB) (Http404, [])).1.body =
          json_dumps (Json.obj d)) ∧
    delete testView testReq (some 1) testDB =
      Except.ok (⟨204, "", none, none⟩, []) :=
  ⟨(C9_created_and_deleted testView testReq testDB
        (Json.obj [("title", Json.str "x")]) 1 testObj).1 rfl rfl
      (okOr (add_object testView testReq testDB) (Http404, [])).1
      (okOr (add_object testView testReq testDB) (Http404, [])).2 rfl,
   (C9_created_and_deleted testView testReq testDB
        (Json.obj [("title", Json.str "x")]) 1 testObj).2 rfl (by decide)⟩

/-- Witness for C10 at the request whose body fails to parse. -/
theorem C10_unparseable_body_witness :
    add_object testView testReqBadBody testDB =
      Except.ok (HttpResponseBadRequest "Unable to parse JSON request body." none, testDB) ∧
    update_object testView testReqBadBody testObj testDB =
      Except.ok (HttpResponseBadRequest "Unable to parse JSON request body." none, testDB) :=
  C10_unparseable_body testView testReqBadBody testDB testObj rfl

/-- C4: the view exposes the records over HTTP through five operations:
GET without id serves the serialized list, GET with id the serialized
detail, POST without id creates (appends the saved object, answering 201),
PUT with id updates that record in place, and DELETE with id deletes it. -/
theorem C4_five_operations (v : ViewConfig) (req : Request) (db : DB)
    (i : Int) (obj : Obj) (data : Json) :
    (v.paginate_by = none →
      ∀ l, serializeList v (queryset v db) = Except.ok l →
      dispatch v Method.GET req none db =
        Except.ok (HttpResponse (json_dumps (Json.arr l)) (some "application/json"), db)) ∧
    ((queryset v db).find? (fun o => o.id == i) = some obj →
      ∀ d, serialize v obj (FieldSpec.name "id" :: v.display_fields) = Except.ok d →
      dispatch v Method.GET req (some i) db =
        Except.ok (HttpResponse (json_dumps (Json.obj d)) (some "application/json"), db)) ∧
    (has_add_permission v req = true → req.body = Except.ok data →
      (get_form_instance v data none).is_valid = true →
      ∀ resp db2, dispatch v Method.POST req none db = Except.ok (resp, db2) →
        resp.status = 201 ∧ db2 = db ++ [(get_form_instance v data none).save]) ∧
    ((queryset v db).find? (fun o => o.id == i) = some obj →
      has_update_permission v req obj = true → req.body = Except.ok data →
      (get_form_instance v data (some obj)).is_valid = true →
      ∀ resp db2, dispatch v Method.PUT req (some i) db = Except.ok (resp, db2) →
        resp.status = 200 ∧
        db2 = db.map (fun o =>
          if o.id == obj.id then (get_form_instance v data (some obj)).save else o)) ∧
    ((queryset v db).find? (fun o => o.id == i) = some obj →
      has_delete_permission v req obj = true →
      dispatch v Method.DELETE req (some i) db =
        Except.ok (⟨204, "", none, none⟩, db.filter (fun o => !(o.id == obj.id)))) := by
  refine ⟨?_, ?_, ?_, ?_, ?_⟩
  · intro hpag l hl
    simp [dispatch, BackboneAPIView.get, get_collection, hpag, hl]
  · intro hf d hd
    simp [dispatch, BackboneAPIView.get, hf, get_object_detail, hd]
  · intro hperm hb hvld resp db2 h
    simp only [dispatch, post] at h
    rw [hperm] at h
    simp only [Bool.not_true] at h
    simp at h
    simp only [add_object, hb, hvld, has_add_permission_for_data, Bool.not_true,
      if_true] at h
    cases hd : get_object_detail v (get_form_instance v data none).save with
    | error e => rw [hd] at h; simp at h
    | ok r =>
      rw [hd] at h
      simp at h
      obtain ⟨hr, hdb⟩ := h
      exact ⟨by rw [← hr], hdb.symm⟩
  · intro hf hperm hb hvld resp db2 h
    simp only [dispatch, put, hf] at h
    rw [hperm] at h
    simp only [Bool.not_true] at h
    simp at h
    simp only [update_object, hb, hvld, has_update_permission_for_data,
      Bool.not_true, if_true] at h
    cases hd : get_object_detail v (get_form_instance v data (some obj)).save with
    | error e => rw [hd] at h; simp at h
    | ok r =>
      rw [hd] at h
      simp at h
      obtain ⟨hr, hdb⟩ := h
      constructor
      · simp only [get_object_detail] at hd
        cases hs : serialize v (get_form_instance v data (some obj)).save
            (FieldSpec.name "id" :: v.display_fields) with
        | error e => rw [hs] at hd; simp at hd
        | ok d =>
          rw [hs] at hd
          simp at hd
          rw [← hr, ← hd]
          rfl
      · simpa using hdb.symm
  · intro hf hp
    simp [dispatch, delete, hf, hp, delete_object]

/-- Witness for C4: the five operations on the sample view. -/
theorem C4_five_operations_witness :
    dispatch testView Method.GET testReq none testDB =
      Except.ok (HttpResponse
        (json_dumps (Json.arr [Json.obj [("id", Json.num 1), ("title", Json.str "a")]]))
        (some "application/json"), testDB) ∧
    dispatch testView Method.GET testReq (some 1) testDB =
      Except.ok (HttpResponse
        (json_dumps (Json.obj [("id", Json.num 1), ("title", Json.str "a")]))
        (some "application/json"), testDB) ∧
    ((okOr (dispatch testView Method.POST testReq none testDB) (Http404, [])).1.status = 201 ∧
      (okOr (dispatch testView Method.POST testReq none testDB) (Http404, [])).2 =
        testDB ++ [testObj2]) ∧
    ((okOr (dispatch testView Method.PUT testReq (some 1) testDB) (Http404, [])).1.status = 200 ∧
      (okOr (dispatch testView Method.PUT testReq (some 1) testDB) (Http404, [])).2 =
        [testObj2]) ∧
    dispatch testView Method.DELETE testReq (some 1) testDB =
      Except.ok (⟨204, "", none, none⟩, []) :=
  ⟨(C4_five_operations testView testReq testDB 1 testObj
      (Json.obj [("title", Json.str "x")])).1 rfl
      [Json.obj [("id", Json.num 1), ("title", Json.str "a")]] rfl,
   (C4_five_operations testView testReq testDB 1 testObj
      (Json.obj [("title", Json.str "x")])).2.1 rfl
      [("id", Json.num 1), ("title", Json.str "a")] rfl,
   (C4_five_operations testView testReq testDB 1 testObj
      (Json.obj [("title", Json.str "x")])).2.2.1 (by decide) rfl rfl
      (okOr (dispatch testView Method.POST testReq none testDB) (Http404, [])).1
      (okOr (dispatch testView Method.POST testReq none testDB) (Http404, [])).2 rfl,
   (C4_five_operations testView testReq testDB 1 testObj
      (Json.obj [("title", Json.str "x")])).2.2.2.1 rfl (by decide) rfl rfl
      (okOr (dispatch testView Method.PUT testReq (some 1) testDB) (Http404, [])).1
      (okOr (dispatch testView Method.PUT testReq (some 1) testDB) (Http404, [])).2 rfl,
   (C4_five_operations testView testReq testDB 1 testObj
      (Json.obj [("title", Json.str "x")])).2.2.2.2 rfl (by decide)⟩

/-- C5: pagination is a thin delegation to the paginator: with
`paginate_by` set, a collection GET serves exactly the slice of the
ordered queryset the `page` parameter selects (defaulting to page 1), at
most `paginate_by` objects; with `paginate_by` at `None` the whole ordered
queryset is served. -/
theorem C5_pagination (v : ViewConfig) (req : Request) (db : DB) (per : Nat)
    (p : Int) :
    (v.paginate_by = none →
      get_collection v req db =
        match serializeList v (queryset v db) with
        | Except.error e => Except.error e
        | Except.ok l =>
            Except.ok (HttpResponse (json_dumps (Json.arr l)) (some "application/json"))) ∧
    (req.pageParam = none → page_number req = Except.ok 1) ∧
    (v.paginate_by = some per →
      ∀ chunk, paginator_page (queryset v db) per (page_number req) = Except.ok chunk →
        get_collection v req db =
          (match serializeList v chunk with
           | Except.error e => Except.error e
           | Except.ok l =>
               Except.ok (HttpResponse (json_dumps (Json.arr l)) (some "application/json"))) ∧
        chunk.length ≤ per) ∧
    (∀ q, paginator_page (queryset v db) per (Except.ok p) = Except.ok q →
      q = ((queryset v db).drop ((p - 1).toNat * per)).take per) := by
  refine ⟨?_, ?_, ?_, ?_⟩
  · intro hpag
    simp [get_collection, hpag]
  · intro hp
    simp [page_number, hp]
  · intro hpag chunk hc
    constructor
    · simp [get_collection, hpag, hc]
    · cases hpn : page_number req with
      | error u =>
        rw [hpn] at hc
        simp [paginator_page] at hc
      | ok pp =>
        rw [hpn] at hc
        simp only [paginator_page] at hc
        by_cases h1 : pp < 1
        · rw [if_pos h1] at hc
          exact absurd hc (by simp)
        · rw [if_neg h1] at hc
          by_cases h2 : (num_pages (queryset v db).length per : Int) < pp
          · rw [if_pos h2] at hc
            exact absurd hc (by simp)
          · rw [if_neg h2] at hc
            simp only [Except.ok.injEq] at hc
            rw [← hc]
            exact List.length_take_le _ _
  · intro q hq
    simp only [paginator_page] at hq
    by_cases h1 : p < 1
    · rw [if_pos h1] at hq
      exact absurd hq (by simp)
    · rw [if_neg h1] at hq
      by_cases h2 : (num_pages (queryset v db).length per : Int) < p
      · rw [if_pos h2] at hq
        exact absurd hq (by simp)
      · rw [if_neg h2] at hq
        simp only [Except.ok.injEq] at hq
        exact hq.symm

/-- Witness for C5: the unpaginated sample view serves the whole queryset;
the paginated sample view with three rows and two per page serves exactly
the one-row second page. -/
theorem C5_pagination_witness :
    (get_collection testView testReq testDB =
      match serializeList testView (queryset testView testDB) with
      | Except.error e => Except.error e
      | Except.ok l =>
          Except.ok (HttpResponse (json_dumps (Json.arr l)) (some "application/json"))) ∧
    page_number testReq = Except.ok 1 ∧
    (get_collection testViewPaged testReqPage2 testDB3 =
      (match serializeList testViewPaged [testObj3] with
       | Except.error e => Except.error e
       | Except.ok l =>
           Except.ok (HttpResponse (json_dumps (Json.arr l)) (some "application/json"))) ∧
      ([testObj3] : List Obj).length ≤ 2) ∧
    [testObj3] = ((queryset testViewPaged testDB3).drop (((2 : Int) - 1).toNat * 2)).take 2 :=
  ⟨(C5_pagination testView testReq testDB 2 2).1 rfl,
   (C5_pagination testView testReq testDB 2 2).2.1 rfl,
   (C5_pagination testViewPaged testReqPage2 testDB3 2 2).2.2.1 rfl [testObj3] rfl,
   (C5_pagination testViewPaged testReqPage2 testDB3 2 2).2.2.2 [testObj3] rfl⟩

/-- C6: every successful GET (status 200), detail or collection, has
content type `application/json` and a body that is the `json_dumps` of the
serialized record(s), each built from `id` prepended to the display
fields. -/
theorem C6_json_success (v : ViewConfig) (req : Request) (id : Option Int)
    (db : DB) (resp : Response) :
    get v req id db = Except.ok resp → resp.status = 200 →
    resp.content_type = some "application/json" ∧
    ((∃ obj d, serialize v obj (FieldSpec.name "id" :: v.display_fields) = Except.ok d ∧
        resp.body = json_dumps (Json.obj d)) ∨
     (∃ objs l, serializeList v objs = Except.ok l ∧
        resp.body = json_dumps (Json.arr l))) := by
  intro h hs
  cases id with
  | some i =>
    simp only [BackboneAPIView.get] at h
    cases hf : (queryset v db).find? (fun o => o.id == i) with
    | none =>
      rw [hf] at h
      simp at h
      rw [← h] at hs
      simp [Http404] at hs
    | some obj =>
      rw [hf] at h
      simp only [get_object_detail] at h
      cases hserial : serialize v obj (FieldSpec.name "id" :: v.display_fields) with
      | error e => rw [hserial] at h; simp at h
      | ok d =>
        rw [hserial] at h
        simp at h
        exact ⟨by rw [← h]; rfl, Or.inl ⟨obj, d, hserial, by rw [← h]; rfl⟩⟩
  | none =>
    cases hpag : v.paginate_by with
    | none =>
      simp only [BackboneAPIView.get, get_collection, hpag] at h
      cases hsl : serializeList v (queryset v db) with
      | error e => rw [hsl] at h; simp at h
      | ok l =>
        rw [hsl] at h
        simp at h
        exact ⟨by rw [← h]; rfl, Or.inr ⟨queryset v db, l, hsl, by rw [← h]; rfl⟩⟩
    | some per =>
      simp only [BackboneAPIView.get, get_collection, hpag] at h
      cases hpp : paginator_page (queryset v db) per (page_number req) with
      | error pe =>
        rw [hpp] at h
        cases pe with
        | pageNotAnInteger =>
          simp at h
          rw [← h] at hs
          simp [HttpResponseBadRequest] at hs
        | emptyPage =>
          simp at h
          rw [← h] at hs
          simp [HttpResponseBadRequest] at hs
      | ok chunk =>
        rw [hpp] at h
        simp only [] at h
        cases hsl : serializeList v chunk with
        | error e => rw [hsl] at h; simp at h
        | ok l =>
          rw [hsl] at h
          simp at h
          exact ⟨by rw [← h]; rfl, Or.inr ⟨chunk, l, hsl, by rw [← h]; rfl⟩⟩

/-- Witness for C6 at a concrete successful collection GET. -/
theorem C6_json_success_witness :
    (respOr (get testView testReq none testDB) Http404).content_type =
      some "application/json" ∧
    ((∃ obj d, serialize testView obj
        (FieldSpec.name "id" :: testView.display_fields) = Except.ok d ∧
        (respOr (get testView testReq none testDB) Http404).body =
          json_dumps (Json.obj d)) ∨
     (∃ objs l, serializeList testView objs = Except.ok l ∧
        (respOr (get testView testReq none testDB) Http404).body =
          json_dumps (Json.arr l))) :=
  C6_json_success testView testReq none testDB
    (respOr (get testView testReq none testDB) Http404) rfl rfl

/-- C7: database field values reach the response through
`AllFieldsSerializer`, and response bodies through `json_dumps`, which
renders after recursively sorting dictionary keys, so the keys of a
rendered dictionary are sorted. -/
theorem C7_serializer_and_encoder (v : ViewConfig) (o : Obj) (f : String)
    (val : Json) (kvs l : List (String × Json)) :
    (∀ d, serialize v o (FieldSpec.name "id" :: v.display_fields) = Except.ok d →
      get_object_detail v o =
        Except.ok (HttpResponse (json_dumps (Json.obj d)) (some "application/json"))) ∧
    (v.viewMethods.lookup f = none → o.attrs.lookup f = some (Attr.dbField val) →
      allFieldsSerializer o [f] = [(f, val)] ∧
      serialize v o [FieldSpec.name f] = Except.ok (allFieldsSerializer o [f])) ∧
    (json_dumps (Json.obj kvs) = renderJson (Json.obj (sortPairs (sortKeysList kvs))) ∧
      (sortPairs l).Pairwise keyLE) := by
  refine ⟨?_, ?_, ?_, ?_⟩
  · intro d hd
    simp [get_object_detail, hd]
  · intro hv ha
    constructor
    · simp [allFieldsSerializer, ha]
    · simp [serialize, serializeLoop, hv, ha, allFieldsSerializer, dictInsert,
        getattr_value]
  · rfl
  · exact List.sorted_insertionSort keyLE l

/-- Witness for C7 at the sample object, its database field `title`, and a
concrete unsorted dictionary. -/
theorem C7_serializer_and_encoder_witness :
    get_object_detail testView testObj =
      Except.ok (HttpResponse
        (json_dumps (Json.obj [("id", Json.num 1), ("title", Json.str "a")]))
        (some "application/json")) ∧
    (allFieldsSerializer testObj ["title"] = [("title", Json.str "a")] ∧
      serialize testView testObj [FieldSpec.name "title"] =
        Except.ok (allFieldsSerializer testObj ["title"])) ∧
    json_dumps (Json.obj [("b", Json.num 2), ("a", Json.num 1)]) =
      renderJson (Json.obj (sortPairs
        (sortKeysList [("b", Json.num 2), ("a", Json.num 1)]))) ∧
    (sortPairs [("b", Json.num 2), ("a", Json.num 1)]).Pairwise keyLE :=
  ⟨(C7_serializer_and_encoder testView testObj "title" (Json.str "a")
      [("b", Json.num 2), ("a", Json.num 1)]
      [("b", Json.num 2), ("a", Json.num 1)]).1
      [("id", Json.num 1), ("title", Json.str "a")] rfl,
   (C7_serializer_and_encoder testView testObj "title" (Json.str "a")
      [("b", Json.num 2), ("a", Json.num 1)]
      [("b", Json.num 2), ("a", Json.num 1)]).2.1 rfl rfl,
   (C7_serializer_and_encoder testView testObj "title" (Json.str "a")
      [("b", Json.num 2), ("a", Json.num 1)]
      [("b", Json.num 2), ("a", Json.num 1)]).2.2.1,
   (C7_serializer_and_encoder testView testObj "title" (Json.str "a")
      [("b", Json.num 2), ("a", Json.num 1)]
      [("b", Json.num 2), ("a", Json.num 1)]).2.2.2⟩

end Backbone
